import Mathlib

/-
Verification of the endon error-report ingestion endpoint
(src/ingestor/server.go, the body of the single `e.POST("/", ...)` route).

The handler pipeline is embedded shallowly:
  * the request carries the Content-Type header value, the outcome of
    reading and syntactically parsing the body, and an identifier for the
    request cancellation context;
  * the timeseries store client is a parameter `w : Point -> Except String Unit`
    giving the outcome `WritePoint` would return for a point;
  * the wall clock `time.Now()` is a parameter `now : Nat`;
  * the handler returns the HTTP response together with the list of store
    write attempts it issued, each paired with the Go context it passed.
Responses are modelled at the level of the status code and the message
string handed to `c.JSON`.
-/

namespace Endon

/-- JSON values, the wire format consumed by the Go standard library
decoder. Numbers are modelled as integers; no claim inspects numeric
values beyond their not being strings. -/
inductive Json where
  | null
  | bool (b : Bool)
  | num (n : Int)
  | str (s : String)
  | arr (elems : List Json)
  | obj (members : List (String × Json))

/-- The wire entity of src/ingestor/server.go (`type ErrorReport`).
Members absent from the JSON object keep the Go zero value, the empty
string. -/
structure ErrorReport where
  service : String
  endpoint : String
  error : String
  traceback : String
deriving Repr, DecidableEq

/-- The zero value of `ErrorReport`, the state of `var report ErrorReport`
before decoding. -/
def zeroReport : ErrorReport := ⟨"", "", "", ""⟩

/-- Modelled from the Go standard library: case-insensitive key
comparison (`strings.EqualFold` on the ASCII range) used by
`encoding/json` to match an object key against a struct field tag when no
exact match exists. Since the four tags of `ErrorReport` are lowercase
and pairwise distinct, exact-then-folded matching coincides with folded
matching. -/
def foldEq (a b : String) : Bool :=
  a.data.map Char.toLower == b.data.map Char.toLower

/-- Modelled from Go `encoding/json` struct decoding: assign one object
member to the matching field of the report. A `null` member value leaves
a string field untouched without error; a non-string value for a matched
field is a decode error; a key matching no field tag is ignored. -/
def applyKey (r : ErrorReport) (k : String) (v : Json) : Except String ErrorReport :=
  if foldEq k "service" then
    match v with
    | .str s => .ok { r with service := s }
    | .null => .ok r
    | _ => .error "cannot unmarshal value into field service"
  else if foldEq k "endpoint" then
    match v with
    | .str s => .ok { r with endpoint := s }
    | .null => .ok r
    | _ => .error "cannot unmarshal value into field endpoint"
  else if foldEq k "error" then
    match v with
    | .str s => .ok { r with error := s }
    | .null => .ok r
    | _ => .error "cannot unmarshal value into field error"
  else if foldEq k "traceback" then
    match v with
    | .str s => .ok { r with traceback := s }
    | .null => .ok r
    | _ => .error "cannot unmarshal value into field traceback"
  else
    .ok r

/-- Apply the members of a JSON object in order; on duplicate keys the
later member overwrites, as in Go. Decoding stops at the first type
error; the Go decoder records the error and keeps going, but the two
behaviours are indistinguishable to the handler, which only tests
whether `json.Unmarshal` returned an error. -/
def applyKeys : ErrorReport → List (String × Json) → Except String ErrorReport
  | r, [] => .ok r
  | r, (k, v) :: rest =>
    match applyKey r k v with
    | .ok r2 => applyKeys r2 rest
    | .error e => .error e

/-- Modelled from Go `encoding/json`: `json.Unmarshal(body, &report)` on
an already syntactically valid JSON document. A top-level `null` succeeds
and leaves the report at its zero value; a top-level object assigns its
members; any other top-level value is a type error. -/
def unmarshalErrorReport : Json → Except String ErrorReport
  | .null => .ok zeroReport
  | .obj members => applyKeys zeroReport members
  | _ => .error "cannot unmarshal value into ErrorReport"

/-- The outcome of `io.ReadAll` followed by the syntactic phase of
`json.Unmarshal`: reading the body can fail, and a successfully read body
either parses to a JSON document or is malformed (`parsed = none`). -/
inductive BodyOutcome where
  | readFailure
  | bytes (parsed : Option Json)

/-- A Go context value, as far as the handler distinguishes them: either
`context.Background()` or the cancellation context attached to a given
inbound request. -/
inductive GoContext where
  | background
  | request (id : Nat)
deriving Repr, DecidableEq

/-- An inbound HTTP request to `POST /`: the Content-Type header value
(empty when the header is missing), the body outcome, and the identifier
of the request cancellation context. -/
structure Request where
  contentType : String
  body : BodyOutcome
  ctxId : Nat

/-- The cancellation context attached to an inbound request
(`c.Request().Context()` in echo terms). -/
def Request.cancellationContext (req : Request) : GoContext := .request req.ctxId

/-- The report the request body decodes to, when Content-Type is not yet
considered: `some r` when the body was read, parsed and unmarshalled
without error, `none` otherwise. -/
def Request.decodedReport (req : Request) : Option ErrorReport :=
  match req.body with
  | .bytes (some j) =>
    match unmarshalErrorReport j with
    | .ok r => some r
    | .error _ => none
  | _ => none

/-- An InfluxDB point as built by `write.NewPoint` in the handler: tag
and field maps are association lists in insertion order, and every field
value in this program is a string. -/
structure Point where
  measurement : String
  tags : List (String × String)
  fields : List (String × String)
  timestamp : Nat
deriving Repr, DecidableEq

/-- Lookup in an association-list map, the observation claims make on
tag and field maps. -/
def mapGet (m : List (String × String)) (k : String) : Option String :=
  match m with
  | [] => none
  | (k2, v) :: rest => if k2 == k then some v else mapGet rest k

/-- The field map of the handler: `fields` starts with the required
`error` entry and gains a `traceback` entry only when the input traceback
is non-empty (src/ingestor/server.go lines 107-114). -/
def reportFields (r : ErrorReport) : List (String × String) :=
  if r.traceback == "" then [("error", r.error)]
  else [("error", r.error), ("traceback", r.traceback)]

/-- The point the handler constructs for a validated report
(src/ingestor/server.go lines 116-125): measurement `error_logs`, tags
`service` and `endpoint`, the field map of `reportFields`, and the wall
clock reading at construction time. -/
def builtPoint (now : Nat) (r : ErrorReport) : Point :=
  { measurement := "error_logs"
    tags := [("service", r.service), ("endpoint", r.endpoint)]
    fields := reportFields r
    timestamp := now }

/-- An HTTP response: status code and the message string passed to
`c.JSON`. -/
structure Response where
  status : Nat
  body : String
deriving Repr, DecidableEq

/-- One store write attempt: the Go context passed to
`writeAPI.WritePoint` and the point written. -/
structure WriteAttempt where
  ctx : GoContext
  point : Point
deriving Repr, DecidableEq

/-- What one handler invocation produced: the HTTP response and the
store write attempts it issued, in order. -/
structure HandlerResult where
  response : Response
  writes : List WriteAttempt
deriving Repr, DecidableEq

/-- The body of `e.POST("/", ...)` in src/ingestor/server.go, lines
80-133: Content-Type check, body read, JSON unmarshal, required-field
check, point construction, and the blocking write issued with
`context.Background()`. `now` is the `time.Now()` reading and `w` the
store client. -/
def handle (now : Nat) (w : Point → Except String Unit) (req : Request) : HandlerResult :=
  if req.contentType ≠ "application/json" then
    ⟨⟨415, "Content-Type must be application/json"⟩, []⟩
  else
    match req.body with
    | .readFailure => ⟨⟨400, "Error reading request body"⟩, []⟩
    | .bytes none => ⟨⟨400, "Error unmarshalling JSON"⟩, []⟩
    | .bytes (some j) =>
      match unmarshalErrorReport j with
      | .error _ => ⟨⟨400, "Error unmarshalling JSON"⟩, []⟩
      | .ok report =>
        if report.service == "" || report.endpoint == "" || report.error == "" then
          ⟨⟨400, "Missing required fields in the JSON payload"⟩, []⟩
        else
          let point := builtPoint now report
          match w point with
          | .error _ => ⟨⟨500, "Error writing point to InfluxDB"⟩, [⟨.background, point⟩]⟩
          | .ok _ => ⟨⟨200, "Error logged"⟩, [⟨.background, point⟩]⟩

/-- A key matching none of the four field tags of `ErrorReport` under the
decoder's folded comparison; such a key is ignored by decoding. -/
def knownKey (k : String) : Bool :=
  foldEq k "service" || foldEq k "endpoint" || foldEq k "error" || foldEq k "traceback"

/-- A string that is non-empty yet consists solely of whitespace
characters. -/
def whitespaceOnly (s : String) : Bool := !(s == "") && s.data.all Char.isWhitespace

/-- A store client that accepts every write. -/
def okStore : Point → Except String Unit := fun _ => .ok ()

/-- A store client that rejects every write with an internal error
message. -/
def failStore : Point → Except String Unit := fun _ => .error "influx: connection refused"

/-- The body of the spec scenario: service `api`, endpoint `/v1/x`,
error `timeout`, no traceback member. -/
def sampleBody : Json :=
  .obj [("service", .str "api"), ("endpoint", .str "/v1/x"), ("error", .str "timeout")]

/-- The report `sampleBody` decodes to. -/
def sampleReport : ErrorReport := ⟨"api", "/v1/x", "timeout", ""⟩

/-- A well-formed request carrying `sampleBody` with the JSON
Content-Type. -/
def sampleRequest : Request := ⟨"application/json", .bytes (some sampleBody), 7⟩

/-- The body of the spec scenario extended with a non-empty traceback
member. -/
def tbBody : Json :=
  .obj [("service", .str "api"), ("endpoint", .str "/v1/x"),
        ("error", .str "timeout"), ("traceback", .str "trace line")]

/-- The report `tbBody` decodes to. -/
def tbReport : ErrorReport := ⟨"api", "/v1/x", "timeout", "trace line"⟩

/-- A well-formed request carrying `tbBody`. -/
def tbRequest : Request := ⟨"application/json", .bytes (some tbBody), 8⟩

/-- A body whose three required members are single spaces. -/
def wsBody : Json :=
  .obj [("service", .str " "), ("endpoint", .str " "), ("error", .str " ")]

/-- The report `wsBody` decodes to. -/
def wsReport : ErrorReport := ⟨" ", " ", " ", ""⟩

/-- A request carrying `wsBody` with the JSON Content-Type. -/
def wsRequest : Request := ⟨"application/json", .bytes (some wsBody), 12⟩

/-- A request whose body is the JSON document `null`. -/
def nullRequest : Request := ⟨"application/json", .bytes (some .null), 2⟩

/-- A request with the JSON Content-Type plus a charset parameter and a
perfectly valid body. -/
def charsetRequest : Request :=
  ⟨"application/json; charset=utf-8", .bytes (some sampleBody), 3⟩

/-- A request with Content-Type `text/plain` and a perfectly valid
body. -/
def plainRequest : Request := ⟨"text/plain", .bytes (some sampleBody), 4⟩

/-- A request with the JSON Content-Type whose body is not valid JSON. -/
def badJsonRequest : Request := ⟨"application/json", .bytes none, 9⟩

/-- A body that is a JSON object holding only keys matching no
`ErrorReport` field. -/
def unknownKeysBody : Json := .obj [("level", .str "fatal"), ("code", .num 500)]

/-- A request carrying `unknownKeysBody` with the JSON Content-Type. -/
def unknownKeysRequest : Request := ⟨"application/json", .bytes (some unknownKeysBody), 11⟩

theorem handle_valid_eq (now : Nat) (w : Point → Except String Unit) (req : Request)
    (r : ErrorReport)
    (hct : req.contentType = "application/json")
    (hdec : req.decodedReport = some r)
    (hreq : (r.service == "" || r.endpoint == "" || r.error == "") = false) :
    handle now w req =
      match w (builtPoint now r) with
      | .error _ =>
        ⟨⟨500, "Error writing point to InfluxDB"⟩, [⟨.background, builtPoint now r⟩]⟩
      | .ok _ => ⟨⟨200, "Error logged"⟩, [⟨.background, builtPoint now r⟩]⟩ := by
  obtain ⟨ct, body, cid⟩ := req
  simp only at hct hdec
  subst hct
  unfold Request.decodedReport at hdec
  cases body with
  | readFailure => simp at hdec
  | bytes p =>
    cases p with
    | none => simp at hdec
    | some j =>
      simp only at hdec
      cases hu : unmarshalErrorReport j with
      | error e => rw [hu] at hdec; simp at hdec
      | ok r2 =>
        rw [hu] at hdec
        simp only [Option.some.injEq] at hdec
        subst hdec
        simp [handle, hu, hreq]

theorem handle_valid_writes (now : Nat) (w : Point → Except String Unit) (req : Request)
    (r : ErrorReport)
    (hct : req.contentType = "application/json")
    (hdec : req.decodedReport = some r)
    (hreq : (r.service == "" || r.endpoint == "" || r.error == "") = false) :
    (handle now w req).writes = [⟨.background, builtPoint now r⟩] := by
  rw [handle_valid_eq now w req r hct hdec hreq]
  cases w (builtPoint now r) <;> rfl

theorem append_nonempty_ne (a s : String) (hs : s ≠ "") : a ++ s ≠ a := by
  intro h
  have hl := congrArg String.length h
  rw [String.length_append] at hl
  have h0 : s.length = 0 := by omega
  have h1 : s.data.length = 0 := h0
  have hd : s.data = [] := List.length_eq_zero.mp h1
  exact hs (by cases s; simp_all)

theorem applyKey_traceback (r0 r1 : ErrorReport) (k : String) (v : Json)
    (hk : foldEq k "traceback" = false)
    (ha : applyKey r0 k v = .ok r1) : r1.traceback = r0.traceback := by
  unfold applyKey at ha
  split at ha
  · cases v <;> simp at ha <;> subst ha <;> rfl
  · split at ha
    · cases v <;> simp at ha <;> subst ha <;> rfl
    · split at ha
      · cases v <;> simp at ha <;> subst ha <;> rfl
      · split at ha
        · simp_all
        · simp at ha; subst ha; rfl

theorem applyKeys_traceback (members : List (String × Json)) :
    ∀ r0 r2 : ErrorReport, (∀ p ∈ members, foldEq p.1 "traceback" = false) →
      applyKeys r0 members = .ok r2 → r2.traceback = r0.traceback := by
  induction members with
  | nil =>
    intro r0 r2 _ hr
    simp [applyKeys] at hr
    simp [hr]
  | cons kv rest ih =>
    intro r0 r2 h hr
    obtain ⟨k, v⟩ := kv
    have hk : foldEq k "traceback" = false := h (k, v) (by simp)
    unfold applyKeys at hr
    cases ha : applyKey r0 k v with
    | error e => rw [ha] at hr; simp at hr
    | ok r1 =>
      rw [ha] at hr
      have h1 : r1.traceback = r0.traceback := applyKey_traceback r0 r1 k v hk ha
      have h2 := ih r1 r2 (fun p hp => h p (by simp [hp])) hr
      rw [h2, h1]

theorem applyKey_unknown (r : ErrorReport) (k : String) (v : Json)
    (h : knownKey k = false) : applyKey r k v = .ok r := by
  unfold knownKey at h
  simp only [Bool.or_eq_false_iff] at h
  unfold applyKey
  simp [h.1.1.1, h.1.1.2, h.1.2, h.2]

theorem applyKeys_filter (members : List (String × Json)) :
    ∀ r : ErrorReport,
      applyKeys r members = applyKeys r (members.filter fun p => knownKey p.1) := by
  induction members with
  | nil => intro r; rfl
  | cons kv rest ih =>
    intro r
    obtain ⟨k, v⟩ := kv
    by_cases hk : knownKey k = true
    · rw [List.filter_cons_of_pos (by simpa using hk)]
      simp only [applyKeys]
      cases ha : applyKey r k v with
      | error e => simp [ha]
      | ok r2 => simp only [ha]; exact ih r2
    · have hk2 : knownKey k = false := by simpa using hk
      rw [List.filter_cons_of_neg (by simpa using hk2)]
      have hstep : applyKeys r ((k, v) :: rest) = applyKeys r rest := by
        simp only [applyKeys, applyKey_unknown r k v hk2]
      rw [hstep]
      exact ih r

/-- Claim C1: for every request that passes all validation, the handler
attempts exactly one store write; the response status is 200 exactly when
that write succeeds; and when the write fails the response is 500 with
the fixed message `Error writing point to InfluxDB`, the same constant
for every store error detail. -/
theorem c1_single_write_status (now : Nat) (w : Point → Except String Unit)
    (req : Request) (r : ErrorReport)
    (hct : req.contentType = "application/json")
    (hdec : req.decodedReport = some r)
    (hreq : (r.service == "" || r.endpoint == "" || r.error == "") = false) :
    (handle now w req).writes.length = 1 ∧
    ((handle now w req).response.status = 200 ↔ w (builtPoint now r) = .ok ()) ∧
    (∀ e, w (builtPoint now r) = .error e →
      (handle now w req).response = ⟨500, "Error writing point to InfluxDB"⟩) := by
  rw [handle_valid_eq now w req r hct hdec hreq]
  cases hw : w (builtPoint now r) with
  | ok u =>
    cases u
    exact ⟨rfl, by simp, fun e he => Except.noConfusion he⟩
  | error e2 =>
    refine ⟨rfl, by simp, fun e _ => rfl⟩

/-- Claim C1 witness: the spec scenario request against an accepting
store. -/
theorem c1_witness :
    sampleRequest.contentType = "application/json" ∧
    sampleRequest.decodedReport = some sampleReport ∧
    (sampleReport.service == "" || sampleReport.endpoint == "" ||
      sampleReport.error == "") = false ∧
    ((handle 0 okStore sampleRequest).writes.length = 1 ∧
     ((handle 0 okStore sampleRequest).response.status = 200 ↔
        okStore (builtPoint 0 sampleReport) = .ok ()) ∧
     (∀ e, okStore (builtPoint 0 sampleReport) = .error e →
        (handle 0 okStore sampleRequest).response =
          ⟨500, "Error writing point to InfluxDB"⟩)) :=
  ⟨rfl, by decide, rfl, c1_single_write_status 0 okStore sampleRequest sampleReport rfl (by decide) rfl⟩

/-- Claim C2: for every valid request, the stored point has measurement
`error_logs`, exactly the tags `service` and `endpoint` with the input
values, an `error` field equal to the input error string, and the wall
clock reading at construction time as its timestamp, independent of the
request body. -/
theorem c2_point_contents (now : Nat) (w : Point → Except String Unit)
    (req : Request) (r : ErrorReport)
    (hct : req.contentType = "application/json")
    (hdec : req.decodedReport = some r)
    (hreq : (r.service == "" || r.endpoint == "" || r.error == "") = false) :
    (handle now w req).writes = [⟨.background, builtPoint now r⟩] ∧
    (builtPoint now r).measurement = "error_logs" ∧
    (builtPoint now r).tags = [("service", r.service), ("endpoint", r.endpoint)] ∧
    mapGet (builtPoint now r).fields "error" = some r.error ∧
    (builtPoint now r).timestamp = now := by
  refine ⟨handle_valid_writes now w req r hct hdec hreq, rfl, rfl, ?_, rfl⟩
  unfold builtPoint reportFields
  by_cases ht : r.traceback = ""
  · simp [ht, mapGet]
  · have hb : (r.traceback == "") = false := by simp [ht]
    simp [hb, mapGet]

/-- Claim C2 witness: the spec scenario request, clock reading 5. -/
theorem c2_witness :
    sampleRequest.contentType = "application/json" ∧
    sampleRequest.decodedReport = some sampleReport ∧
    (sampleReport.service == "" || sampleReport.endpoint == "" ||
      sampleReport.error == "") = false ∧
    ((handle 5 okStore sampleRequest).writes = [⟨.background, builtPoint 5 sampleReport⟩] ∧
     (builtPoint 5 sampleReport).measurement = "error_logs" ∧
     (builtPoint 5 sampleReport).tags =
        [("service", sampleReport.service), ("endpoint", sampleReport.endpoint)] ∧
     mapGet (builtPoint 5 sampleReport).fields "error" = some sampleReport.error ∧
     (builtPoint 5 sampleReport).timestamp = 5) :=
  ⟨rfl, by decide, rfl, c2_point_contents 5 okStore sampleRequest sampleReport rfl (by decide) rfl⟩

/-- Claim C3: for every valid request, the stored point carries a
`traceback` field exactly when the decoded traceback is non-empty, with
the input value; a JSON object with no member matching the `traceback`
tag decodes to an empty traceback, so an absent member also yields no
field. -/
theorem c3_traceback_field (now : Nat) (w : Point → Except String Unit)
    (req : Request) (r : ErrorReport)
    (hct : req.contentType = "application/json")
    (hdec : req.decodedReport = some r)
    (hreq : (r.service == "" || r.endpoint == "" || r.error == "") = false) :
    (handle now w req).writes = [⟨.background, builtPoint now r⟩] ∧
    mapGet (builtPoint now r).fields "traceback" =
      (if r.traceback = "" then none else some r.traceback) ∧
    (∀ (members : List (String × Json)) (r2 : ErrorReport),
      (∀ p ∈ members, foldEq p.1 "traceback" = false) →
      unmarshalErrorReport (.obj members) = .ok r2 → r2.traceback = "") := by
  refine ⟨handle_valid_writes now w req r hct hdec hreq, ?_, ?_⟩
  · unfold builtPoint reportFields
    by_cases ht : r.traceback = ""
    · simp [ht, mapGet]
    · have hb : (r.traceback == "") = false := by simp [ht]
      simp [hb, ht, mapGet]
  · intro members r2 h hm
    have hz := applyKeys_traceback members zeroReport r2 h
      (by simpa [unmarshalErrorReport] using hm)
    simpa [zeroReport] using hz

/-- Claim C3 witness: the traceback-carrying request, and the plain
scenario request whose point has no traceback field. -/
theorem c3_witness :
    tbRequest.contentType = "application/json" ∧
    tbRequest.decodedReport = some tbReport ∧
    (tbReport.service == "" || tbReport.endpoint == "" ||
      tbReport.error == "") = false ∧
    ((handle 0 okStore tbRequest).writes = [⟨.background, builtPoint 0 tbReport⟩] ∧
     mapGet (builtPoint 0 tbReport).fields "traceback" =
       (if tbReport.traceback = "" then none else some tbReport.traceback) ∧
     (∀ (members : List (String × Json)) (r2 : ErrorReport),
       (∀ p ∈ members, foldEq p.1 "traceback" = false) →
       unmarshalErrorReport (.obj members) = .ok r2 → r2.traceback = "")) :=
  ⟨rfl, by decide, rfl, c3_traceback_field 0 okStore tbRequest tbReport rfl (by decide) rfl⟩

/-- Claim C4: for every request with the JSON Content-Type whose body
fails to read, parse or unmarshal, or whose decoded report has an empty
required field, the response status is 400 and no store write is
attempted. -/
theorem c4_invalid_400_no_write (now : Nat) (w : Point → Except String Unit)
    (req : Request)
    (hct : req.contentType = "application/json")
    (hbad : req.decodedReport = none ∨
      ∃ r, req.decodedReport = some r ∧
        (r.service == "" || r.endpoint == "" || r.error == "") = true) :
    (handle now w req).response.status = 400 ∧ (handle now w req).writes = [] := by
  cases hb : req.body with
  | readFailure => simp [handle, hct, hb]
  | bytes p =>
    cases p with
    | none => simp [handle, hct, hb]
    | some j =>
      cases hu : unmarshalErrorReport j with
      | error e => simp [handle, hct, hb, hu]
      | ok r =>
        rcases hbad with hnone | ⟨r2, hr2, hempty⟩
        · exfalso
          rw [Request.decodedReport, hb] at hnone
          simp [hu] at hnone
        · rw [Request.decodedReport, hb] at hr2
          simp [hu] at hr2
          subst hr2
          simp [handle, hct, hb, hu, hempty]

/-- Claim C4 witness: a malformed body with the JSON Content-Type. -/
theorem c4_witness :
    badJsonRequest.contentType = "application/json" ∧
    badJsonRequest.decodedReport = none ∧
    ((handle 0 okStore badJsonRequest).response.status = 400 ∧
     (handle 0 okStore badJsonRequest).writes = []) :=
  ⟨rfl, rfl, c4_invalid_400_no_write 0 okStore badJsonRequest rfl (Or.inl rfl)⟩

/-- Claim C5: for every request whose Content-Type header differs from
`application/json`, the response is 415 with the fixed message,
regardless of the body, and no store write is attempted. -/
theorem c5_wrong_content_type (now : Nat) (w : Point → Except String Unit)
    (req : Request)
    (hct : req.contentType ≠ "application/json") :
    (handle now w req).response = ⟨415, "Content-Type must be application/json"⟩ ∧
    (handle now w req).writes = [] := by
  simp [handle, hct]

/-- Claim C5 witness: Content-Type `text/plain` with a valid body. -/
theorem c5_witness :
    plainRequest.contentType ≠ "application/json" ∧
    ((handle 0 okStore plainRequest).response =
       ⟨415, "Content-Type must be application/json"⟩ ∧
     (handle 0 okStore plainRequest).writes = []) :=
  ⟨by decide, c5_wrong_content_type 0 okStore plainRequest (by decide)⟩

/-- Claim C6: validation short-circuits in the fixed order Content-Type
check, body read, JSON decode, required-field check; each failing step
yields its own response with no store write, and in particular a wrong
Content-Type wins over any body, valid or not. -/
theorem c6_validation_order (now : Nat) (w : Point → Except String Unit)
    (req : Request) :
    (req.contentType ≠ "application/json" →
      handle now w req = ⟨⟨415, "Content-Type must be application/json"⟩, []⟩) ∧
    (req.contentType = "application/json" → req.body = .readFailure →
      handle now w req = ⟨⟨400, "Error reading request body"⟩, []⟩) ∧
    (req.contentType = "application/json" → req.body = .bytes none →
      handle now w req = ⟨⟨400, "Error unmarshalling JSON"⟩, []⟩) ∧
    (∀ j e, req.contentType = "application/json" → req.body = .bytes (some j) →
      unmarshalErrorReport j = .error e →
      handle now w req = ⟨⟨400, "Error unmarshalling JSON"⟩, []⟩) ∧
    (∀ j r, req.contentType = "application/json" → req.body = .bytes (some j) →
      unmarshalErrorReport j = .ok r →
      (r.service == "" || r.endpoint == "" || r.error == "") = true →
      handle now w req = ⟨⟨400, "Missing required fields in the JSON payload"⟩, []⟩) := by
  refine ⟨?_, ?_, ?_, ?_, ?_⟩
  · intro h1; simp [handle, h1]
  · intro h1 h2; simp [handle, h1, h2]
  · intro h1 h2; simp [handle, h1, h2]
  · intro j e h1 h2 h3; simp [handle, h1, h2, h3]
  · intro j r h1 h2 h3 h4; simp [handle, h1, h2, h3, h4]

/-- Claim C6 witness: a request with wrong Content-Type and a valid
body is answered 415, not 400. -/
theorem c6_witness :
    plainRequest.contentType ≠ "application/json" ∧
    plainRequest.decodedReport = some sampleReport ∧
    handle 0 okStore plainRequest =
      ⟨⟨415, "Content-Type must be application/json"⟩, []⟩ :=
  ⟨by decide, by decide, (c6_validation_order 0 okStore plainRequest).1 (by decide)⟩

/-- Claim C7 counterexample: on the spec scenario request, the write is
not issued with the request cancellation context; the handler passes
`context.Background()` instead (src/ingestor/server.go line 128). -/
theorem c7_counterexample :
    ¬ (∀ a ∈ (handle 0 okStore sampleRequest).writes,
        a.ctx = sampleRequest.cancellationContext) := by
  decide

/-- Claim C7 (amended): for every valid request, the single store write
is issued with the background context, which is never the request
cancellation context, so a caller disconnect does not cancel the
in-flight write. -/
theorem c7_background_context (now : Nat) (w : Point → Except String Unit)
    (req : Request) (r : ErrorReport)
    (hct : req.contentType = "application/json")
    (hdec : req.decodedReport = some r)
    (hreq : (r.service == "" || r.endpoint == "" || r.error == "") = false) :
    (handle now w req).writes = [⟨GoContext.background, builtPoint now r⟩] ∧
    GoContext.background ≠ req.cancellationContext := by
  refine ⟨handle_valid_writes now w req r hct hdec hreq, ?_⟩
  simp [Request.cancellationContext]

/-- Claim C7 witness: the amended statement on the spec scenario
request. -/
theorem c7_witness :
    sampleRequest.contentType = "application/json" ∧
    sampleRequest.decodedReport = some sampleReport ∧
    (sampleReport.service == "" || sampleReport.endpoint == "" ||
      sampleReport.error == "") = false ∧
    ((handle 0 okStore sampleRequest).writes =
        [⟨GoContext.background, builtPoint 0 sampleReport⟩] ∧
     GoContext.background ≠ sampleRequest.cancellationContext) :=
  ⟨rfl, by decide, rfl,
   c7_background_context 0 okStore sampleRequest sampleReport rfl (by decide) rfl⟩

/-- Claim C8: the Content-Type check is an exact string comparison:
appending anything, such as a charset parameter, to `application/json`
yields 415 with no write attempt even when the body is valid JSON, and
so does a differently cased header value. -/
theorem c8_exact_content_type (now : Nat) (w : Point → Except String Unit)
    (req : Request) (s : String) :
    (s ≠ "" → req.contentType = "application/json" ++ s →
      (handle now w req).response = ⟨415, "Content-Type must be application/json"⟩ ∧
      (handle now w req).writes = []) ∧
    (∀ req2 : Request, req2.contentType = "Application/JSON" →
      (handle now w req2).response = ⟨415, "Content-Type must be application/json"⟩ ∧
      (handle now w req2).writes = []) := by
  constructor
  · intro hs hct
    have hne : req.contentType ≠ "application/json" := by
      rw [hct]; exact append_nonempty_ne "application/json" s hs
    simp [handle, hne]
  · intro req2 h2
    have hne : req2.contentType ≠ "application/json" := by
      rw [h2]; decide
    simp [handle, hne]

/-- Claim C8 witness: the JSON media type with a charset parameter and a
perfectly valid JSON body is rejected with 415. -/
theorem c8_witness :
    ("; charset=utf-8" : String) ≠ "" ∧
    charsetRequest.contentType = "application/json" ++ "; charset=utf-8" ∧
    charsetRequest.decodedReport = some sampleReport ∧
    ((handle 0 okStore charsetRequest).response =
        ⟨415, "Content-Type must be application/json"⟩ ∧
     (handle 0 okStore charsetRequest).writes = []) :=
  ⟨by decide, by decide, by decide,
   (c8_exact_content_type 0 okStore charsetRequest "; charset=utf-8").1
     (by decide) (by decide)⟩

/-- Claim C9: the required-field check is literal equality with the
empty string, with no trimming: whitespace-only values pass validation
and are stored verbatim as tag and field values. -/
theorem c9_no_trimming (now : Nat) (w : Point → Except String Unit)
    (req : Request) (r : ErrorReport)
    (hct : req.contentType = "application/json")
    (hdec : req.decodedReport = some r)
    (hws : whitespaceOnly r.service = true ∧ whitespaceOnly r.endpoint = true ∧
      whitespaceOnly r.error = true) :
    (handle now w req).writes = [⟨GoContext.background, builtPoint now r⟩] ∧
    mapGet (builtPoint now r).tags "service" = some r.service ∧
    mapGet (builtPoint now r).tags "endpoint" = some r.endpoint ∧
    mapGet (builtPoint now r).fields "error" = some r.error := by
  obtain ⟨h1, h2, h3⟩ := hws
  simp only [whitespaceOnly, Bool.and_eq_true, Bool.not_eq_true'] at h1 h2 h3
  have hreq : (r.service == "" || r.endpoint == "" || r.error == "") = false := by
    simp [h1.1, h2.1, h3.1]
  refine ⟨handle_valid_writes now w req r hct hdec hreq, ?_, ?_, ?_⟩
  · simp [builtPoint, mapGet]
  · simp [builtPoint, mapGet]
  · unfold builtPoint reportFields
    by_cases htb : r.traceback = ""
    · simp [htb, mapGet]
    · have hb : (r.traceback == "") = false := by simp [htb]
      simp [hb, mapGet]

/-- Claim C9 witness: single-space service, endpoint and error pass
validation and are stored verbatim. -/
theorem c9_witness :
    wsRequest.contentType = "application/json" ∧
    wsRequest.decodedReport = some wsReport ∧
    (whitespaceOnly wsReport.service = true ∧ whitespaceOnly wsReport.endpoint = true ∧
      whitespaceOnly wsReport.error = true) ∧
    ((handle 0 okStore wsRequest).writes =
        [⟨GoContext.background, builtPoint 0 wsReport⟩] ∧
     mapGet (builtPoint 0 wsReport).tags "service" = some wsReport.service ∧
     mapGet (builtPoint 0 wsReport).tags "endpoint" = some wsReport.endpoint ∧
     mapGet (builtPoint 0 wsReport).fields "error" = some wsReport.error) :=
  ⟨rfl, by decide, ⟨by decide, by decide, by decide⟩,
   c9_no_trimming 0 okStore wsRequest wsReport rfl (by decide)
     ⟨by decide, by decide, by decide⟩⟩

/-- Claim C10: decoding is permissive: members whose keys match no field
tag are ignored and never cause rejection, and the body `null` decodes
to the all-empty report; both cases are answered with the 400
missing-required-fields response, not the malformed-JSON one. -/
theorem c10_permissive_decoding (now : Nat) (w : Point → Except String Unit) :
    (∀ (r : ErrorReport) (members : List (String × Json)),
       applyKeys r members = applyKeys r (members.filter fun p => knownKey p.1)) ∧
    (∀ req : Request, req.contentType = "application/json" →
       req.body = .bytes (some .null) →
       handle now w req = ⟨⟨400, "Missing required fields in the JSON payload"⟩, []⟩) ∧
    (∀ (req : Request) (members : List (String × Json)),
       req.contentType = "application/json" →
       req.body = .bytes (some (.obj members)) →
       (∀ p ∈ members, knownKey p.1 = false) →
       handle now w req = ⟨⟨400, "Missing required fields in the JSON payload"⟩, []⟩) := by
  refine ⟨fun r members => applyKeys_filter members r, ?_, ?_⟩
  · intro req h1 h2
    simp [handle, h1, h2, unmarshalErrorReport, zeroReport]
  · intro req members h1 h2 hunk
    have hfil : members.filter (fun p => knownKey p.1) = [] :=
      List.filter_eq_nil_iff.mpr (by intro a ha; simp [hunk a ha])
    have hm : unmarshalErrorReport (.obj members) = .ok zeroReport := by
      simp only [unmarshalErrorReport]
      rw [applyKeys_filter members zeroReport, hfil]
      rfl
    simp [handle, h1, h2, hm, zeroReport]

/-- Claim C10 witness: the body `null` and a body of only unknown keys
are both answered with the missing-required-fields 400 response. -/
theorem c10_witness :
    (nullRequest.contentType = "application/json" ∧
     nullRequest.body = .bytes (some .null) ∧
     handle 0 okStore nullRequest =
       ⟨⟨400, "Missing required fields in the JSON payload"⟩, []⟩) ∧
    (unknownKeysRequest.contentType = "application/json" ∧
     unknownKeysRequest.body = .bytes (some unknownKeysBody) ∧
     handle 0 okStore unknownKeysRequest =
       ⟨⟨400, "Missing required fields in the JSON payload"⟩, []⟩) :=
  ⟨⟨rfl, rfl, (c10_permissive_decoding 0 okStore).2.1 nullRequest rfl rfl⟩,
   ⟨rfl, rfl,
    (c10_permissive_decoding 0 okStore).2.2 unknownKeysRequest
      [("level", .str "fatal"), ("code", .num 500)] rfl rfl (by decide)⟩⟩

end Endon
